import Mathlib

/-
  Verification development for the rf_win UI-automation core.

  Shallow embedding of the Python sources:
    - rf_win/utils/locator_helper.py   (LocatorHelper.parse_locator)
    - rf_win/utils/cache_manager.py    (CacheItem, CacheManager)
    - rf_win/utils/wait_strategy.py    (WaitStrategy._wait_until)
    - rf_win/utils/dpi_adapter.py      (DPIAdapter.adapt_coordinate / reverse_coordinate)
    - rf_win/drivers/automation_driver.py (PywinautoDriver / UIAutomationDriver /
      DriverFactory)
    - rf_win/services/control_service.py  (ControlService.find_element)

  Machine integers do not occur; Python floats used as wall-clock seconds and
  DPI scale factors are modelled as exact rationals, str as Lean String,
  dict as an insertion-ordered association list with unique keys (CPython
  semantics: overwriting keeps the position, inserting appends, deleting
  removes).  Code that can raise returns Except PyErr.
-/

namespace RfWin

/-- Python exception values that the embedded code can raise. -/
inductive PyErr where
  | valueError (msg : String)
  | attributeError (msg : String)
  | elementNotFound
deriving DecidableEq, Repr

/-! ## rf_win/utils/locator_helper.py -/

/-- ASCII whitespace removed by Python str.strip (the locator grammar is
ASCII; the full Unicode whitespace set is not needed for the embedded code). -/
def pySpaceChars : List Char := [' ', '\t', '\n', '\r', '\x0b', '\x0c']

def isPySpace (c : Char) : Bool := c ∈ pySpaceChars

/-- Python str.strip on the character list. -/
def stripChars (l : List Char) : List Char :=
  ((l.dropWhile isPySpace).reverse.dropWhile isPySpace).reverse

/-- Python str.strip. -/
def pyStrip (s : String) : String := (stripChars s.data).asString

/-- Python str.lower (ASCII-faithful; the recognized locator types are ASCII). -/
def pyLower (s : String) : String := (s.data.map Char.toLower).asString

/-- Python s.split(sep, 1) restricted to the branch where sep occurs:
the part before the first sep and the part after it. -/
def splitOnceChars (sep : Char) : List Char → List Char × List Char
  | [] => ([], [])
  | c :: cs =>
    if c = sep then ([], cs)
    else
      let p := splitOnceChars sep cs
      (c :: p.1, p.2)

/-- The dict returned by LocatorHelper.parse_locator
(keys "type", "value", "backend_key"). -/
structure LocatorDict where
  type : String
  value : String
  backend_key : String
deriving DecidableEq, Repr

/-- LocatorHelper.LOCATOR_TYPES (locator_helper.py lines 11-17). -/
def LOCATOR_TYPES : List (String × String) :=
  [("id", "automation_id"), ("name", "name"), ("class", "class_name"),
   ("xpath", "xpath"), ("title", "title")]

/-- LocatorHelper.parse_locator (locator_helper.py lines 19-61).
`if not locator` is the emptiness test on a str; `"=" in locator` is a
single-character containment test; `locator.split("=", 1)` splits at the
first '='; the type part is stripped and lowercased, the value stripped;
an unrecognized type raises ValueError, and a string without '=' becomes
a title locator with the raw string as value. -/
def parse_locator (locator : String) : Except PyErr LocatorDict :=
  if locator.data = [] then
    .error (.valueError "Locator cannot be empty")
  else if '=' ∈ locator.data then
    let p := splitOnceChars '=' locator.data
    let locatorType := pyLower (pyStrip p.1.asString)
    let value := pyStrip p.2.asString
    match LOCATOR_TYPES.lookup locatorType with
    | some backendKey => .ok ⟨locatorType, value, backendKey⟩
    | none => .error (.valueError ("Unknown locator type: " ++ locatorType))
  else
    .ok ⟨"title", locator, "title"⟩

theorem splitOnceChars_append (sep : Char) (a b : List Char) (h : sep ∉ a) :
    splitOnceChars sep (a ++ sep :: b) = (a, b) := by
  induction a with
  | nil => simp [splitOnceChars]
  | cons c cs ih =>
    have hc : c ≠ sep := by
      intro hEq
      exact h (hEq ▸ List.mem_cons_self c cs)
    have hcs : sep ∉ cs := fun hm => h (List.mem_cons_of_mem _ hm)
    simp [splitOnceChars, hc, ih hcs]

theorem data_asString (l : List Char) : (List.asString l).data = l := rfl

theorem asString_data (s : String) : List.asString s.data = s := rfl

/-- Claim C2 counterexample: the claim says a string containing '=' with an
unrecognized type falls back to a Title locator; the code instead raises
ValueError ("Unknown locator type: ...").  Concrete input "foo=bar". -/
theorem parse_locator_unknown_type_counterexample :
    parse_locator "foo=bar" = .error (.valueError "Unknown locator type: foo") ∧
      parse_locator "foo=bar" ≠ .ok ⟨"title", "foo=bar", "title"⟩ := by
  constructor
  · rfl
  · intro h
    rw [show parse_locator "foo=bar"
          = .error (.valueError "Unknown locator type: foo") from rfl] at h
    cases h

/-- Claim C2 (amended): parse_locator fails with ValueError on the empty
string; a string of the form t=v splits at the first '=': when the stripped,
lowercased type t is one of id, name, class, xpath, title (so e.g. "ID = x"
and "title=x" are also accepted), the result carries that normalized type,
the stripped value, and the mapped backend key; when it is not recognized,
parse_locator fails with ValueError (it does not fall back to Title); a
non-empty string without '=' becomes a title locator whose value is the raw
string.  Parsing fails exactly when the input is empty or contains '=' with
an unrecognized normalized type: for every non-empty '='-containing input,
success is equivalent to the normalized type part being found in
LOCATOR_TYPES. -/
theorem parse_locator_spec :
    (parse_locator "" = .error (.valueError "Locator cannot be empty")) ∧
    (∀ v : String,
      parse_locator ("id=" ++ v) = .ok ⟨"id", pyStrip v, "automation_id"⟩ ∧
      parse_locator ("name=" ++ v) = .ok ⟨"name", pyStrip v, "name"⟩ ∧
      parse_locator ("class=" ++ v) = .ok ⟨"class", pyStrip v, "class_name"⟩ ∧
      parse_locator ("xpath=" ++ v) = .ok ⟨"xpath", pyStrip v, "xpath"⟩ ∧
      parse_locator ("title=" ++ v) = .ok ⟨"title", pyStrip v, "title"⟩) ∧
    (∀ t v : String, '=' ∉ t.data → ∀ bk : String,
      LOCATOR_TYPES.lookup (pyLower (pyStrip t)) = some bk →
      parse_locator (t ++ "=" ++ v)
        = .ok ⟨pyLower (pyStrip t), pyStrip v, bk⟩) ∧
    (∀ t v : String, '=' ∉ t.data →
      (LOCATOR_TYPES.lookup (pyLower (pyStrip t)) = none) →
      parse_locator (t ++ "=" ++ v)
        = .error (.valueError ("Unknown locator type: " ++ pyLower (pyStrip t)))) ∧
    (∀ raw : String, raw ≠ "" → '=' ∉ raw.data →
      parse_locator raw = .ok ⟨"title", raw, "title"⟩) ∧
    (∀ raw : String, raw ≠ "" → '=' ∈ raw.data →
      ((∃ d, parse_locator raw = .ok d) ↔
        (LOCATOR_TYPES.lookup (pyLower (pyStrip
          (splitOnceChars '=' raw.data).1.asString))).isSome = true)) := by
  refine ⟨rfl, ?_, ?_, ?_, ?_, ?_⟩
  · intro v
    refine ⟨?_, ?_, ?_, ?_, ?_⟩ <;>
    · show parse_locator (List.asString _ ++ v) = _
      rw [parse_locator]
      rw [String.data_append]
      simp only [data_asString]
      rw [if_neg (by simp), if_pos (by simp)]
      rw [show ∀ c cs, (c :: cs : List Char) ++ v.data = c :: (cs ++ v.data)
            from fun c cs => rfl]
      norm_num [splitOnceChars, asString_data]
      rfl
  · intro t v hmem bk hlook
    have hdata : (t ++ "=" ++ v).data = t.data ++ '=' :: v.data := by
      rw [String.data_append, String.data_append]
      exact List.append_assoc t.data ['='] v.data
    rw [parse_locator, hdata]
    rw [if_neg (by simp), if_pos (by simp)]
    rw [splitOnceChars_append '=' t.data v.data hmem]
    simp only [asString_data]
    rw [hlook]
  · intro t v hmem hlook
    have hdata : (t ++ "=" ++ v).data = t.data ++ '=' :: v.data := by
      rw [String.data_append, String.data_append]
      exact List.append_assoc t.data ['='] v.data
    rw [parse_locator, hdata]
    rw [if_neg (by simp), if_pos (by simp)]
    rw [splitOnceChars_append '=' t.data v.data hmem]
    simp only [asString_data]
    rw [hlook]
  · intro raw hne hmem
    rw [parse_locator]
    rw [if_neg (by
      intro h
      exact hne (by
        have : raw = List.asString raw.data := rfl
        rw [this, h]
        rfl))]
    rw [if_neg hmem]
  · intro raw hne hmem
    rw [parse_locator]
    rw [if_neg (by
      intro h
      exact hne (by
        have : raw = List.asString raw.data := rfl
        rw [this, h]
        rfl))]
    rw [if_pos hmem]
    cases hl : LOCATOR_TYPES.lookup (pyLower (pyStrip
        (splitOnceChars '=' raw.data).1.asString)) with
    | some bk => simp [hl]
    | none => simp [hl]

/-- Claim C2 witness: concrete instances of parse_locator_spec with the
hypotheses discharged — the title fallback, an exact prefix, the normalized
type "ID = x", an unrecognized type raising ValueError, and the failure
biconditional at "foo=bar". -/
theorem parse_locator_spec_witness :
    parse_locator "btn ok" = .ok ⟨"title", "btn ok", "title"⟩ ∧
      parse_locator ("id=" ++ "btn_login") = .ok ⟨"id", pyStrip "btn_login", "automation_id"⟩ ∧
      parse_locator "ID = x" = .ok ⟨"id", "x", "automation_id"⟩ ∧
      parse_locator ("foo" ++ "=" ++ "bar")
        = .error (.valueError ("Unknown locator type: " ++ pyLower (pyStrip "foo"))) ∧
      ¬ ∃ d, parse_locator "foo=bar" = .ok d := by
  refine ⟨?_, ?_, ?_, ?_, ?_⟩
  · exact parse_locator_spec.2.2.2.2.1 "btn ok" (by decide) (by decide)
  · exact (parse_locator_spec.2.1 "btn_login").1
  · exact parse_locator_spec.2.2.1 "ID " " x" (by decide) "automation_id" (by decide)
  · exact parse_locator_spec.2.2.2.1 "foo" "bar" (by decide) (by decide)
  · intro hex
    have hiff := parse_locator_spec.2.2.2.2.2 "foo=bar" (by decide) (by decide)
    exact absurd (hiff.mp hex) (by decide)

/-! ## rf_win/utils/cache_manager.py -/

/-- CacheItem (cache_manager.py lines 7-36): value plus expire_time and the
time.time() read at construction. -/
structure CacheItem (α : Type) where
  value : α
  expire_time : ℚ
  created_time : ℚ
deriving DecidableEq, Repr

/-- CacheItem.is_expired (line 27): time.time() - created_time > expire_time,
with time.time() passed explicitly as now. -/
def CacheItem.is_expired (now : ℚ) (item : CacheItem α) : Bool :=
  decide (now - item.created_time > item.expire_time)

/-- CacheManager (cache_manager.py lines 38-181).  The dict self._cache is an
insertion-ordered association list with unique keys. -/
structure CacheManager (α : Type) where
  cacheDict : List (String × CacheItem α)
  max_size : ℕ
  default_expire_time : ℚ
deriving DecidableEq, Repr

/-- CPython dict assignment d[k] = v: overwriting keeps the key's position,
a new key is appended. -/
def dictSet (l : List (String × β)) (k : String) (v : β) : List (String × β) :=
  match l with
  | [] => [(k, v)]
  | (k', v') :: rest => if k' = k then (k, v) :: rest else (k', v') :: dictSet rest k v

/-- CPython del d[k]. -/
def dictDel (l : List (String × β)) (k : String) : List (String × β) :=
  l.filter (fun p => !(p.1 == k))

/-- CacheManager._clean_expired (lines 146-150): delete every expired entry. -/
def cleanExpired (now : ℚ) (l : List (String × CacheItem α)) :
    List (String × CacheItem α) :=
  l.filter (fun p => !(p.2.is_expired now))

/-- Python min(items, key=created_time): the first item whose created_time is
minimal (a later item replaces the accumulator only when strictly smaller). -/
def minByCreated (best : String × CacheItem α) :
    List (String × CacheItem α) → String × CacheItem α
  | [] => best
  | x :: xs => minByCreated (if x.2.created_time < best.2.created_time then x else best) xs

/-- CacheManager._remove_oldest (lines 152-165): return unchanged when empty;
clean expired entries; when entries remain, delete the one with the smallest
created_time — unconditionally, even when the cleaning already brought the
size under max_size. -/
def removeOldestList (now : ℚ) (l : List (String × CacheItem α)) :
    List (String × CacheItem α) :=
  match l with
  | [] => l
  | _ :: _ =>
    match cleanExpired now l with
    | [] => []
    | x :: xs => dictDel (x :: xs) (minByCreated x xs).1

/-- CacheManager.set (lines 52-67): resolve the expire time, evict via
_remove_oldest when len(self._cache) >= max_size, then store the new item
created at now. -/
def CacheManager.set (now : ℚ) (c : CacheManager α) (key : String) (value : α)
    (expire_time : Option ℚ) : CacheManager α :=
  let e := expire_time.getD c.default_expire_time
  let cache1 :=
    if c.cacheDict.length ≥ c.max_size then removeOldestList now c.cacheDict
    else c.cacheDict
  { c with cacheDict := dictSet cache1 key ⟨value, e, now⟩ }

/-- CacheManager.get (lines 69-87), result only (the deletion a get performs
on an expired entry does not matter for the claims below). -/
def CacheManager.get (now : ℚ) (c : CacheManager α) (key : String) : Option α :=
  match c.cacheDict.lookup key with
  | none => none
  | some item => if item.is_expired now then none else some item.value

/-- CacheManager.__init__ (lines 41-50). -/
def CacheManager.empty (α : Type) (maxSize : ℕ) (defaultExpire : ℚ) : CacheManager α :=
  ⟨[], maxSize, defaultExpire⟩

/-- Sequential insertion of distinct keys, one per time unit, with the default
expire time (the scenario of the capacity claim). -/
def insertSeq (v : α) : CacheManager α → List String → ℚ → CacheManager α
  | c, [], _ => c
  | c, k :: ks, t => insertSeq v (CacheManager.set t c k v none) ks (t + 1)

/-- Claim C4 counterexample: capacity 2, entries "a" (created 0, ttl 1,
expired at time 10) and "b" (created 5, ttl 100, fresh at time 10).
Inserting "c" at time 10 purges "a", leaving 1 < 2 entries — the claim says
eviction then stops — but the code still evicts the fresh oldest entry "b",
so only "c" remains. -/
theorem cacheManager_unconditional_evict_counterexample :
    ((CacheManager.set 5
      (CacheManager.set 0 (CacheManager.empty ℕ 2 10) "a" 0 (some 1))
      "b" 0 (some 100)).cacheDict.map Prod.fst = ["a", "b"]) ∧
    (CacheItem.is_expired 10 ⟨0, 100, 5⟩ = false) ∧
    ((cleanExpired 10
      (CacheManager.set 5
        (CacheManager.set 0 (CacheManager.empty ℕ 2 10) "a" 0 (some 1))
        "b" 0 (some 100)).cacheDict).length = 1) ∧
    ((CacheManager.set 10
      (CacheManager.set 5
        (CacheManager.set 0 (CacheManager.empty ℕ 2 10) "a" 0 (some 1))
        "b" 0 (some 100))
      "c" 0 (some 100)).cacheDict.map Prod.fst = ["c"]) := by
  refine ⟨?_, ?_, ?_, ?_⟩ <;>
    norm_num +decide [CacheManager.set, CacheManager.empty, dictSet, dictDel,
      removeOldestList, cleanExpired, CacheItem.is_expired, minByCreated]

theorem dictSet_fresh (l : List (String × β)) (k : String) (v : β)
    (h : k ∉ l.map Prod.fst) : dictSet l k v = l ++ [(k, v)] := by
  induction l with
  | nil => rfl
  | cons p rest ih =>
    obtain ⟨a, b⟩ := p
    simp only [List.map_cons, List.mem_cons] at h
    push_neg at h
    simp [dictSet, Ne.symm h.1, ih h.2]

theorem lookup_dictDel (l : List (String × β)) (k : String) :
    (dictDel l k).lookup k = none := by
  induction l with
  | nil => rfl
  | cons p rest ih =>
    obtain ⟨a, b⟩ := p
    by_cases hak : a = k
    · simpa [dictDel, hak] using ih
    · rw [dictDel, List.filter_cons, if_pos (by simp [hak])]
      rw [List.lookup_cons, beq_false_of_ne (Ne.symm hak)]
      exact ih

theorem lookup_dictSet_ne (l : List (String × β)) (k k' : String) (v : β)
    (h : k' ≠ k) : (dictSet l k v).lookup k' = l.lookup k' := by
  induction l with
  | nil => simp [dictSet, List.lookup_cons, beq_false_of_ne h]
  | cons p rest ih =>
    obtain ⟨a, b⟩ := p
    by_cases hak : a = k
    · subst hak
      simp [dictSet, List.lookup_cons, beq_false_of_ne h]
    · simp [dictSet, hak, List.lookup_cons, ih]

theorem cleanExpired_eq_self (now : ℚ) (l : List (String × CacheItem α))
    (h : ∀ p ∈ l, p.2.is_expired now = false) : cleanExpired now l = l := by
  rw [cleanExpired, List.filter_eq_self]
  intro p hp
  simp [h p hp]

theorem minByCreated_eq_best (best : String × CacheItem α)
    (xs : List (String × CacheItem α))
    (h : ∀ x ∈ xs, ¬ x.2.created_time < best.2.created_time) :
    minByCreated best xs = best := by
  induction xs with
  | nil => rfl
  | cons x xs ih =>
    rw [minByCreated, if_neg (h x (List.mem_cons_self x xs))]
    exact ih fun y hy => h y (List.mem_cons_of_mem _ hy)

/-- The cache contents produced by inserting fresh keys one per time unit. -/
def buildItems (v : α) (e : ℚ) : List String → ℚ → List (String × CacheItem α)
  | [], _ => []
  | k :: ks, t => (k, ⟨v, e, t⟩) :: buildItems v e ks (t + 1)

theorem buildItems_map_fst (v : α) (e : ℚ) (ks : List String) :
    ∀ t : ℚ, (buildItems v e ks t).map Prod.fst = ks := by
  induction ks with
  | nil => intro t; rfl
  | cons k ks ih => intro t; simp [buildItems, ih]

theorem buildItems_length (v : α) (e : ℚ) (ks : List String) :
    ∀ t : ℚ, (buildItems v e ks t).length = ks.length := by
  induction ks with
  | nil => intro t; rfl
  | cons k ks ih => intro t; simp [buildItems, ih]

theorem buildItems_mem (v : α) (e : ℚ) (ks : List String) :
    ∀ t : ℚ, ∀ p ∈ buildItems v e ks t,
      p.2.expire_time = e ∧ t ≤ p.2.created_time := by
  induction ks with
  | nil => intro t p hp; cases hp
  | cons k ks ih =>
    intro t p hp
    rcases List.mem_cons.mp hp with hp | hp
    · subst hp
      exact ⟨rfl, le_refl t⟩
    · obtain ⟨he, ht⟩ := ih (t + 1) p hp
      exact ⟨he, by linarith⟩

theorem insertSeq_no_evict (v : α) (ks : List String) :
    ∀ (c : CacheManager α) (t : ℚ), ks.Nodup →
      (∀ k ∈ ks, k ∉ c.cacheDict.map Prod.fst) →
      c.cacheDict.length + ks.length ≤ c.max_size →
      insertSeq v c ks t
        = { c with cacheDict := c.cacheDict ++ buildItems v c.default_expire_time ks t } := by
  induction ks with
  | nil => intro c t _ _ _; simp [insertSeq, buildItems]
  | cons k ks ih =>
    intro c t hnd hfresh hlen
    have hklt : ¬ c.cacheDict.length ≥ c.max_size := by
      simp only [List.length_cons] at hlen
      omega
    have hset : CacheManager.set t c k v none
        = { c with cacheDict := c.cacheDict ++ [(k, ⟨v, c.default_expire_time, t⟩)] } := by
      rw [CacheManager.set]
      simp only [if_neg hklt, Option.getD_none]
      rw [dictSet_fresh _ _ _ (hfresh k (List.mem_cons_self k ks))]
    rw [insertSeq, hset]
    rw [ih _ (t + 1) hnd.of_cons ?fresh ?len]
    · simp [buildItems, List.append_assoc]
    case fresh =>
      intro k' hk'
      simp only [List.map_append, List.mem_append, List.map_cons, List.map_nil]
      rintro (hmem | hmem)
      · exact hfresh k' (List.mem_cons_of_mem _ hk') hmem
      · simp only [List.mem_singleton] at hmem
        exact (List.nodup_cons.mp hnd).1 (hmem ▸ hk')
    case len =>
      simp only [List.length_append, List.length_cons, List.length_nil]
      simp only [List.length_cons] at hlen
      omega

theorem insertSeq_append_last (v : α) (kN : String) (ks : List String) :
    ∀ (c : CacheManager α) (t : ℚ),
      insertSeq v c (ks ++ [kN]) t
        = CacheManager.set (t + (ks.length : ℚ)) (insertSeq v c ks t) kN v none := by
  induction ks with
  | nil => intro c t; simp [insertSeq]
  | cons x xs ih =>
    intro c t
    show insertSeq v (CacheManager.set t c x v none) (xs ++ [kN]) (t + 1) = _
    rw [ih]
    have harith : t + 1 + (xs.length : ℚ) = t + (((x :: xs).length : ℕ) : ℚ) := by
      push_cast [List.length_cons]
      ring
    rw [harith]
    rfl

theorem dictDel_cons_self (k₀ : String) (it : CacheItem α)
    (rest : List (String × CacheItem α)) (h : k₀ ∉ rest.map Prod.fst) :
    dictDel ((k₀, it) :: rest) k₀ = rest := by
  rw [dictDel, List.filter_cons]
  rw [if_neg (by simp)]
  rw [List.filter_eq_self]
  intro p hp
  have hne : p.1 ≠ k₀ := by
    intro hEq
    exact h (hEq ▸ List.mem_map_of_mem Prod.fst hp)
  simp [hne]

/-- Claim C4 (amended): in CacheManager.set, an insertion arriving when the
store holds at least max_size entries first purges all expired entries and
then — whenever any entry remains — evicts the entry with the oldest
created_time unconditionally, even when the purge already brought the store
strictly under capacity (part two below: the oldest surviving key is gone
after the insertion whenever the store was at capacity).  Consequently
inserting N + 1 distinct keys, one per time unit, with a TTL that keeps them
all unexpired, into an empty store of capacity N = mid.length + 1 leaves
exactly the last N keys, in insertion order, with precisely the
oldest-inserted key absent (part one below). -/
theorem cacheManager_capacity_eviction :
    (∀ (α : Type) (v : α) (E : ℚ) (k₀ kN : String) (mid : List String),
      (k₀ :: (mid ++ [kN])).Nodup →
      ((mid.length + 1 : ℕ) : ℚ) ≤ E →
      ((insertSeq v (CacheManager.empty α (mid.length + 1) E)
          (k₀ :: (mid ++ [kN])) 0).cacheDict.map Prod.fst = mid ++ [kN]) ∧
      ((insertSeq v (CacheManager.empty α (mid.length + 1) E)
          (k₀ :: (mid ++ [kN])) 0).cacheDict.length = mid.length + 1) ∧
      k₀ ∉ ((insertSeq v (CacheManager.empty α (mid.length + 1) E)
          (k₀ :: (mid ++ [kN])) 0).cacheDict.map Prod.fst)) ∧
    (∀ (α : Type) (c : CacheManager α) (now : ℚ) (key : String) (value : α)
        (e : Option ℚ) (x : String × CacheItem α)
        (xs : List (String × CacheItem α)),
      c.cacheDict.length ≥ c.max_size →
      cleanExpired now c.cacheDict = x :: xs →
      (minByCreated x xs).1 ≠ key →
      ((CacheManager.set now c key value e).cacheDict.lookup
        (minByCreated x xs).1) = none) := by
  constructor
  · intro α v E k₀ kN mid hnd hE
    have h0 := List.nodup_cons.mp hnd
    have hk₀mid : k₀ ∉ mid := fun h => h0.1 (List.mem_append_left _ h)
    have hk₀kN : k₀ ≠ kN := fun h => h0.1 (by simp [h])
    have hmidnd : mid.Nodup := (List.nodup_append.mp h0.2).1
    have hkNmid : kN ∉ mid := fun h =>
      (List.nodup_append.mp h0.2).2.2 h (by simp)
    have hnd1 : (k₀ :: mid).Nodup := List.nodup_cons.mpr ⟨hk₀mid, hmidnd⟩
    have hsplit := insertSeq_append_last v kN (k₀ :: mid)
      (CacheManager.empty α (mid.length + 1) E) 0
    have hphase1 := insertSeq_no_evict v (k₀ :: mid)
      (CacheManager.empty α (mid.length + 1) E) 0 hnd1
      (by intro k _; simp [CacheManager.empty])
      (by simp [CacheManager.empty])
    have hempty : ({ CacheManager.empty α (mid.length + 1) E with
        cacheDict := (CacheManager.empty α (mid.length + 1) E).cacheDict
          ++ buildItems v (CacheManager.empty α (mid.length + 1) E).default_expire_time
              (k₀ :: mid) 0 } : CacheManager α)
        = ⟨buildItems v E (k₀ :: mid) 0, mid.length + 1, E⟩ := by
      simp [CacheManager.empty]
    rw [hempty] at hphase1
    have hnow : (0 : ℚ) + (((k₀ :: mid).length : ℕ) : ℚ)
        = ((mid.length + 1 : ℕ) : ℚ) := by
      push_cast [List.length_cons]
      ring
    set nowQ : ℚ := ((mid.length + 1 : ℕ) : ℚ) with hnowQ
    have hrw : insertSeq v (CacheManager.empty α (mid.length + 1) E)
        (k₀ :: (mid ++ [kN])) 0
        = CacheManager.set nowQ
            (⟨buildItems v E (k₀ :: mid) 0, mid.length + 1, E⟩ : CacheManager α)
            kN v none := by
      rw [show k₀ :: (mid ++ [kN]) = (k₀ :: mid) ++ [kN] from rfl, hsplit,
        hphase1, hnow]
    have hLlen : (buildItems v E (k₀ :: mid) 0).length = mid.length + 1 := by
      rw [buildItems_length]
      simp
    have hclean : cleanExpired nowQ (buildItems v E (k₀ :: mid) 0)
        = buildItems v E (k₀ :: mid) 0 := by
      apply cleanExpired_eq_self
      intro p hp
      obtain ⟨he, hc⟩ := buildItems_mem v E (k₀ :: mid) 0 p hp
      rw [CacheItem.is_expired, decide_eq_false_iff_not]
      rw [he, hnowQ]
      push_cast
      intro hcontra
      rw [hnowQ] at hE
      push_cast at hE
      linarith
    have hmin : minByCreated (k₀, (⟨v, E, 0⟩ : CacheItem α))
        (buildItems v E mid (0 + 1)) = (k₀, ⟨v, E, 0⟩) := by
      apply minByCreated_eq_best
      intro x hx
      have := (buildItems_mem v E mid (0 + 1) x hx).2
      simp only
      linarith
    have hdel : dictDel ((k₀, (⟨v, E, 0⟩ : CacheItem α))
        :: buildItems v E mid (0 + 1)) k₀ = buildItems v E mid (0 + 1) := by
      apply dictDel_cons_self
      rw [buildItems_map_fst]
      exact hk₀mid
    have hfreshkN : kN ∉ (buildItems v E mid (0 + 1)).map Prod.fst := by
      rw [buildItems_map_fst]
      exact hkNmid
    have hset : CacheManager.set nowQ
        (⟨buildItems v E (k₀ :: mid) 0, mid.length + 1, E⟩ : CacheManager α)
        kN v none
        = ⟨buildItems v E mid (0 + 1) ++ [(kN, ⟨v, E, nowQ⟩)],
            mid.length + 1, E⟩ := by
      rw [CacheManager.set]
      simp only [Option.getD_none]
      rw [if_pos (by rw [hLlen])]
      rw [show buildItems v E (k₀ :: mid) 0
            = (k₀, (⟨v, E, 0⟩ : CacheItem α)) :: buildItems v E mid (0 + 1)
          from rfl]
      rw [removeOldestList]
      rw [show buildItems v E (k₀ :: mid) 0
            = (k₀, (⟨v, E, 0⟩ : CacheItem α)) :: buildItems v E mid (0 + 1)
          from rfl] at hclean
      simp only [hclean, hmin, hdel]
      rw [dictSet_fresh _ _ _ hfreshkN]
    rw [hrw, hset]
    refine ⟨?_, ?_, ?_⟩
    · simp [List.map_append, buildItems_map_fst]
    · simp [List.length_append, buildItems_length]
    · simp only [List.map_append, List.mem_append, buildItems_map_fst,
        List.map_cons, List.map_nil, List.mem_singleton]
      push_neg
      exact ⟨hk₀mid, hk₀kN⟩
  · intro α c now key value e x xs hge hclean hne
    rw [CacheManager.set]
    simp only
    rw [if_pos hge]
    rcases hc : c.cacheDict with _ | ⟨a, l⟩
    · rw [hc] at hclean
      cases hclean
    · rw [hc] at hclean
      rw [removeOldestList]
      rw [hclean]
      rw [lookup_dictSet_ne _ _ _ _ hne]
      exact lookup_dictDel _ _

/-- Claim C4 witness: the scenario of cacheManager_capacity_eviction at
capacity 2 with keys "a", "b", "c", and the unconditional-eviction part at a
concrete store that is at capacity. -/
theorem cacheManager_capacity_eviction_witness :
    ((insertSeq (0 : ℕ) (CacheManager.empty ℕ 2 100) ["a", "b", "c"] 0).cacheDict.map
        Prod.fst = ["b", "c"]) ∧
    ((CacheManager.set 10
        (⟨[("a", ⟨0, 1, 0⟩), ("b", ⟨0, 100, 5⟩)], 2, 10⟩ : CacheManager ℕ)
        "c" 0 (some 100)).cacheDict.lookup "b" = none) := by
  constructor
  · exact ((cacheManager_capacity_eviction.1 ℕ 0 100 "a" "c" ["b"]
      (by decide) (by norm_num)).1)
  · have hclean : cleanExpired 10
        ([("a", ⟨0, 1, 0⟩), ("b", ⟨0, 100, 5⟩)]
          : List (String × CacheItem ℕ))
        = [("b", ⟨0, 100, 5⟩)] := by
      norm_num [cleanExpired, CacheItem.is_expired]
    have := cacheManager_capacity_eviction.2 ℕ
      (⟨[("a", ⟨0, 1, 0⟩), ("b", ⟨0, 100, 5⟩)], 2, 10⟩ : CacheManager ℕ)
      10 "c" 0 (some 100) ("b", ⟨0, 100, 5⟩) [] (by simp) hclean (by decide)
    simpa [minByCreated] using this

/-! ## rf_win/utils/wait_strategy.py

WaitStrategy._wait_until (lines 157-180) polls condition_func in a loop,
swallowing any exception, and sleeps `interval` between polls until
time.time() - start_time reaches `timeout`.  Time is idealized: the k-th
poll happens at elapsed time k * interval (condition evaluation is
instantaneous and time.sleep sleeps exactly its argument).  The loop is
embedded with explicit fuel; `pollLimit` is the number of loop iterations
actually possible before the while-condition fails, so the fuel bound is
never reached when 0 < interval. -/

/-- Result of a _wait_until run: the returned bool, the elapsed time at
return, and how many times condition_func was evaluated. -/
structure WaitOutcome where
  result : Bool
  elapsed : ℚ
  polls : ℕ
deriving DecidableEq, Repr

/-- The index of the first poll at which the while-condition
time.time() - start_time < timeout fails. -/
def pollLimit (timeout interval : ℚ) : ℕ := (⌈timeout / interval⌉).toNat

/-- One iteration of the while-loop of _wait_until: at poll k (elapsed
k * interval) the loop stops with False when the while-condition fails;
otherwise condition_func() is evaluated — an `ok true` returns True
immediately, an `ok false` or a raised exception falls through to
time.sleep(interval) and the next iteration. -/
def waitAux (cond : ℕ → Except PyErr Bool) (timeout interval : ℚ) :
    ℕ → ℕ → WaitOutcome
  | k, 0 => ⟨false, (k : ℚ) * interval, k⟩
  | k, fuel + 1 =>
    if (k : ℚ) * interval < timeout then
      match cond k with
      | .ok true => ⟨true, (k : ℚ) * interval, k + 1⟩
      | _ => waitAux cond timeout interval (k + 1) fuel
    else ⟨false, (k : ℚ) * interval, k⟩

/-- WaitStrategy._wait_until. -/
def wait_until (cond : ℕ → Except PyErr Bool) (timeout interval : ℚ) : WaitOutcome :=
  waitAux cond timeout interval 0 (pollLimit timeout interval + 1)

theorem waitAux_zero (cond : ℕ → Except PyErr Bool) (t i : ℚ) (k : ℕ) :
    waitAux cond t i k 0 = ⟨false, (k : ℚ) * i, k⟩ := rfl

theorem waitAux_succ (cond : ℕ → Except PyErr Bool) (t i : ℚ) (k fuel : ℕ) :
    waitAux cond t i k (fuel + 1)
      = if (k : ℚ) * i < t then
          match cond k with
          | .ok true => ⟨true, (k : ℚ) * i, k + 1⟩
          | _ => waitAux cond t i (k + 1) fuel
        else ⟨false, (k : ℚ) * i, k⟩ := rfl

theorem pollLimit_le_mul (t i : ℚ) (hi : 0 < i) (k : ℕ)
    (h : pollLimit t i ≤ k) : t ≤ (k : ℚ) * i := by
  have h1 : ⌈t / i⌉ ≤ (k : ℤ) := Int.toNat_le.mp h
  have h2 : t / i ≤ (k : ℚ) := by exact_mod_cast Int.ceil_le.mp h1
  exact (div_le_iff₀ hi).mp h2

theorem mul_lt_of_lt_pollLimit (t i : ℚ) (hi : 0 < i) (k : ℕ)
    (h : k < pollLimit t i) : (k : ℚ) * i < t := by
  have h1 : (k : ℤ) < ⌈t / i⌉ := Int.lt_toNat.mp h
  have h2 : (k : ℚ) < t / i := by exact_mod_cast Int.lt_ceil.mp h1
  exact (lt_div_iff₀ hi).mp h2

theorem waitAux_false (cond : ℕ → Except PyErr Bool) (t i : ℚ) (hi : 0 < i) :
    ∀ fuel k : ℕ, k ≤ pollLimit t i → pollLimit t i ≤ k + fuel →
      (∀ j, k ≤ j → j < pollLimit t i → cond j ≠ .ok true) →
      waitAux cond t i k fuel
        = ⟨false, (pollLimit t i : ℚ) * i, pollLimit t i⟩ := by
  intro fuel
  induction fuel with
  | zero =>
    intro k hk1 hk2 _
    have hEq : k = pollLimit t i := le_antisymm hk1 (by simpa using hk2)
    rw [waitAux_zero, hEq]
  | succ fuel ih =>
    intro k hk1 hk2 hcond
    rcases eq_or_lt_of_le hk1 with heq | hlt
    · have hnotlt : ¬ ((k : ℚ) * i < t) := by
        apply not_lt.mpr
        exact pollLimit_le_mul t i hi k (heq ▸ le_refl _)
      rw [waitAux_succ, if_neg hnotlt, heq]
    · have hklt : (k : ℚ) * i < t := mul_lt_of_lt_pollLimit t i hi k hlt
      rw [waitAux_succ, if_pos hklt]
      cases hc : cond k with
      | ok b =>
        cases b with
        | true => exact absurd hc (hcond k (le_refl k) hlt)
        | false =>
          exact ih (k + 1) hlt (by omega) fun j hj1 hj2 => hcond j (by omega) hj2
      | error e =>
        exact ih (k + 1) hlt (by omega) fun j hj1 hj2 => hcond j (by omega) hj2

theorem waitAux_first_true (cond : ℕ → Except PyErr Bool) (t i : ℚ) (hi : 0 < i)
    (m : ℕ) (hm : cond m = .ok true) (hmt : (m : ℚ) * i < t) :
    ∀ fuel k : ℕ, k ≤ m → m < k + fuel →
      (∀ j, k ≤ j → j < m → cond j ≠ .ok true) →
      waitAux cond t i k fuel = ⟨true, (m : ℚ) * i, m + 1⟩ := by
  intro fuel
  induction fuel with
  | zero =>
    intro k h1 h2 _
    exact absurd h2 (by omega)
  | succ fuel ih =>
    intro k h1 h2 hprev
    rcases eq_or_lt_of_le h1 with heq | hlt
    · rw [waitAux_succ, heq, if_pos hmt, hm]
    · have hkt : (k : ℚ) * i < t := by
        have hki : (k : ℚ) * i < (m : ℚ) * i := by
          apply mul_lt_mul_of_pos_right _ hi
          exact_mod_cast hlt
        linarith
      rw [waitAux_succ, if_pos hkt]
      cases hc : cond k with
      | ok b =>
        cases b with
        | true => exact absurd hc (hprev k (le_refl k) hlt)
        | false =>
          exact ih (k + 1) hlt (by omega) fun j hj1 hj2 => hprev j (by omega) hj2
      | error e =>
        exact ih (k + 1) hlt (by omega) fun j hj1 hj2 => hprev j (by omega) hj2

/-- Claim C5: with 0 < interval and 0 < timeout, _wait_until returns True
the instant a poll returns true (at the elapsed time of the first true poll,
provided it happens before timeout); whenever it returns False the elapsed
time is pollLimit * interval, which lies in [timeout, timeout + interval);
and for a predicate that never returns true the result is False — so the
constantly-false instance terminates with False after an elapsed time in
[timeout, timeout + interval), never instantly and never indefinitely. -/
theorem wait_until_timeout_boundary :
    ∀ (cond : ℕ → Except PyErr Bool) (timeout interval : ℚ),
      0 < interval → 0 < timeout →
      (((wait_until cond timeout interval).result = false →
          wait_until cond timeout interval
            = ⟨false, (pollLimit timeout interval : ℚ) * interval,
                pollLimit timeout interval⟩ ∧
          timeout ≤ (pollLimit timeout interval : ℚ) * interval ∧
          (pollLimit timeout interval : ℚ) * interval < timeout + interval) ∧
        (∀ k : ℕ, (∀ j : ℕ, j < k → cond j ≠ .ok true) → cond k = .ok true →
          (k : ℚ) * interval < timeout →
          wait_until cond timeout interval
            = ⟨true, (k : ℚ) * interval, k + 1⟩) ∧
        ((∀ k : ℕ, cond k ≠ .ok true) →
          (wait_until cond timeout interval).result = false)) := by
  intro cond t i hi ht
  have hboundary : (pollLimit t i : ℚ) * i < t + i := by
    cases hpl : pollLimit t i with
    | zero =>
      push_cast
      linarith
    | succ m =>
      have hmi : (m : ℚ) * i < t :=
        mul_lt_of_lt_pollLimit t i hi m (by omega)
      push_cast
      linarith
  refine ⟨?_, ?_, ?_⟩
  · intro hres
    by_cases hex : ∃ j : ℕ, (j : ℚ) * i < t ∧ cond j = .ok true
    · exfalso
      haveI : DecidablePred fun j : ℕ => (j : ℚ) * i < t ∧ cond j = .ok true :=
        fun _ => Classical.dec _
      have hm := Nat.find_spec hex
      have hmlt : Nat.find hex < pollLimit t i := by
        by_contra hcon
        push_neg at hcon
        exact absurd hm.1 (not_lt.mpr (pollLimit_le_mul t i hi _ hcon))
      have hrun := waitAux_first_true cond t i hi (Nat.find hex) hm.2 hm.1
        (pollLimit t i + 1) 0 (Nat.zero_le _) (by omega) ?_
      · rw [wait_until, hrun] at hres
        cases hres
      · intro j _ hj hcj
        have hjt : (j : ℚ) * i < t := by
          have : (j : ℚ) * i < (Nat.find hex : ℚ) * i := by
            apply mul_lt_mul_of_pos_right _ hi
            exact_mod_cast hj
          linarith [hm.1]
        exact Nat.find_min hex hj ⟨hjt, hcj⟩
    · push_neg at hex
      have hrun := waitAux_false cond t i hi (pollLimit t i + 1) 0
        (Nat.zero_le _) (by omega)
        (fun j _ hj => hex j (mul_lt_of_lt_pollLimit t i hi j hj))
      exact ⟨hrun, pollLimit_le_mul t i hi _ (le_refl _), hboundary⟩
  · intro k hprev hk hkt
    have hklt : k < pollLimit t i := by
      by_contra hcon
      push_neg at hcon
      exact absurd hkt (not_lt.mpr (pollLimit_le_mul t i hi k hcon))
    exact waitAux_first_true cond t i hi k hk hkt (pollLimit t i + 1) 0
      (Nat.zero_le _) (by omega) (fun j _ hj => hprev j hj)
  · intro hall
    have hrun := waitAux_false cond t i hi (pollLimit t i + 1) 0
      (Nat.zero_le _) (by omega) (fun j _ _ => hall j)
    rw [wait_until, hrun]

/-- Claim C5 witness: the constantly-false predicate with timeout 1 and
interval 1/5 = 0.2 yields False after exactly 5 polls and elapsed time 1,
in [1, 1 + 1/5). -/
theorem wait_until_timeout_boundary_witness :
    (wait_until (fun _ => .ok false) 1 (1/5)).result = false ∧
    wait_until (fun _ => .ok false) 1 (1/5)
      = ⟨false, (pollLimit 1 (1/5) : ℚ) * (1/5), pollLimit 1 (1/5)⟩ ∧
    (1 : ℚ) ≤ (pollLimit 1 (1/5) : ℚ) * (1/5) ∧
    (pollLimit 1 (1/5) : ℚ) * (1/5) < 1 + 1/5 := by
  have h := wait_until_timeout_boundary (fun _ => .ok false) 1 (1/5)
    (by norm_num) (by norm_num)
  have hres : (wait_until (fun _ => .ok false) 1 (1/5)).result = false :=
    h.2.2 fun k => by simp
  obtain ⟨heq, hlo, hhi⟩ := h.1 hres
  exact ⟨hres, heq, hlo, hhi⟩

/-- The value _wait_until extracts from one poll: the boolean when
condition_func returns, false when it raises (the except-branch ignores the
exception). -/
def exceptBool (r : Except PyErr Bool) : Bool :=
  match r with
  | .ok b => b
  | .error _ => false

/-- Claim C7: a raised exception during a poll is swallowed and treated
exactly like a poll that returned False: the whole run is equal to the run
of the de-exceptionalized predicate, and the result type carries no error —
nothing propagates to the caller, the loop keeps polling until success or
timeout. -/
theorem wait_until_swallows_exceptions :
    ∀ (cond : ℕ → Except PyErr Bool) (timeout interval : ℚ),
      wait_until cond timeout interval
        = wait_until (fun k => .ok (exceptBool (cond k))) timeout interval := by
  intro cond t i
  rw [wait_until, wait_until]
  suffices h : ∀ fuel k, waitAux cond t i k fuel
      = waitAux (fun k => .ok (exceptBool (cond k))) t i k fuel from
    h (pollLimit t i + 1) 0
  intro fuel
  induction fuel with
  | zero => intro k; rfl
  | succ fuel ih =>
    intro k
    rw [waitAux_succ, waitAux_succ]
    by_cases hkt : (k : ℚ) * i < t
    · rw [if_pos hkt, if_pos hkt]
      cases hc : cond k with
      | ok b =>
        cases b with
        | true => rfl
        | false => exact ih (k + 1)
      | error e => exact ih (k + 1)
    · rw [if_neg hkt, if_neg hkt]

/-- Claim C10: with timeout ≤ 0 the while-condition fails at the very first
check, so _wait_until returns False at elapsed time 0 with zero evaluations
of the predicate — for every predicate, including one that constantly
returns true. -/
theorem wait_until_nonpositive_timeout :
    ∀ (cond : ℕ → Except PyErr Bool) (timeout interval : ℚ), timeout ≤ 0 →
      wait_until cond timeout interval = ⟨false, 0, 0⟩ := by
  intro cond t i ht
  rw [wait_until, waitAux_succ]
  rw [if_neg (by
    push_cast
    simp only [zero_mul]
    exact not_lt.mpr ht)]
  simp

/-- Claim C10 witness: timeout 0 with a constantly-true predicate still
returns False immediately with zero polls. -/
theorem wait_until_nonpositive_timeout_witness :
    wait_until (fun _ => .ok true) 0 (1/2) = ⟨false, 0, 0⟩ :=
  wait_until_nonpositive_timeout (fun _ => .ok true) 0 (1/2) (le_refl 0)

/-! ## rf_win/utils/dpi_adapter.py -/

/-- Python int() applied to a float: truncation toward zero (floor for
nonnegative arguments, ceiling for negative ones). -/
def pyInt (q : ℚ) : ℤ := if 0 ≤ q then ⌊q⌋ else ⌈q⌉

/-- DPIAdapter (dpi_adapter.py): the scale factor read once at construction
(system DPI / 96, e.g. 1.0, 1.25, 1.5, 2.0). -/
structure DPIAdapter where
  dpi_scale : ℚ

/-- DPIAdapter.adapt_coordinate (lines 41-51): logical to physical,
(int(x * scale), int(y * scale)). -/
def DPIAdapter.adapt_coordinate (a : DPIAdapter) (x y : ℤ) : ℤ × ℤ :=
  (pyInt ((x : ℚ) * a.dpi_scale), pyInt ((y : ℚ) * a.dpi_scale))

/-- DPIAdapter.reverse_coordinate (lines 65-75): physical to logical,
(int(x / scale), int(y / scale)). -/
def DPIAdapter.reverse_coordinate (a : DPIAdapter) (x y : ℤ) : ℤ × ℤ :=
  (pyInt ((x : ℚ) / a.dpi_scale), pyInt ((y : ℚ) / a.dpi_scale))

theorem pyInt_neg (q : ℚ) : pyInt (-q) = -pyInt q := by
  rcases lt_trichotomy q 0 with h | h | h
  · rw [pyInt, if_pos (by linarith), pyInt, if_neg (by linarith), Int.floor_neg]
  · subst h
    simp [pyInt]
  · rw [pyInt, if_neg (by linarith), pyInt, if_pos (by linarith), Int.ceil_neg]

/-- The per-coordinate round trip physical-to-logical after
logical-to-physical. -/
def roundTrip (s : ℚ) (x : ℤ) : ℤ := pyInt ((pyInt ((x : ℚ) * s) : ℚ) / s)

theorem roundTrip_bounds_of_nonneg (s : ℚ) (hs : 1 ≤ s) (x : ℤ) (hx : 0 ≤ x) :
    x - 1 ≤ roundTrip s x ∧ roundTrip s x ≤ x := by
  have hs0 : (0 : ℚ) < s := lt_of_lt_of_le one_pos hs
  have hxq : (0 : ℚ) ≤ (x : ℚ) := by exact_mod_cast hx
  have hxs : (0 : ℚ) ≤ (x : ℚ) * s := mul_nonneg hxq hs0.le
  have h1 : pyInt ((x : ℚ) * s) = ⌊(x : ℚ) * s⌋ := if_pos hxs
  have hm0 : (0 : ℚ) ≤ (⌊(x : ℚ) * s⌋ : ℚ) := by
    exact_mod_cast Int.floor_nonneg.mpr hxs
  have hdiv0 : (0 : ℚ) ≤ (⌊(x : ℚ) * s⌋ : ℚ) / s := div_nonneg hm0 hs0.le
  have h2 : roundTrip s x = ⌊(⌊(x : ℚ) * s⌋ : ℚ) / s⌋ := by
    rw [roundTrip, h1, pyInt, if_pos hdiv0]
  constructor
  · rw [h2]
    have hlow : (x : ℚ) * s - 1 < (⌊(x : ℚ) * s⌋ : ℚ) := Int.sub_one_lt_floor _
    have hinv : 1 / s ≤ 1 := by
      rw [div_le_one hs0]
      exact hs
    have : (x : ℚ) - 1 ≤ (⌊(x : ℚ) * s⌋ : ℚ) / s := by
      rw [le_div_iff₀ hs0]
      have hgoal : ((x : ℚ) - 1) * s = x * s - s := by ring
      rw [hgoal]
      linarith
    have := Int.le_floor.mpr (by push_cast; linarith [this] : ((x - 1 : ℤ) : ℚ) ≤ (⌊(x : ℚ) * s⌋ : ℚ) / s)
    omega
  · rw [h2]
    have hup : (⌊(x : ℚ) * s⌋ : ℚ) ≤ (x : ℚ) * s := Int.floor_le _
    have : (⌊(x : ℚ) * s⌋ : ℚ) / s ≤ (x : ℚ) := by
      rw [div_le_iff₀ hs0]
      linarith
    have := Int.floor_le_floor this
    rw [Int.floor_intCast] at this
    exact this

theorem roundTrip_neg (s : ℚ) (x : ℤ) : roundTrip s (-x) = -roundTrip s x := by
  rw [roundTrip, roundTrip]
  rw [show ((-x : ℤ) : ℚ) = -(x : ℚ) from by push_cast; ring]
  rw [neg_mul, pyInt_neg]
  rw [show ((-pyInt ((x : ℚ) * s) : ℤ) : ℚ) = -((pyInt ((x : ℚ) * s) : ℤ) : ℚ) from by push_cast; ring]
  rw [neg_div, pyInt_neg]

theorem roundTrip_abs_le (s : ℚ) (hs : 1 ≤ s) (x : ℤ) :
    |roundTrip s x - x| ≤ 1 := by
  rcases le_or_lt 0 x with hx | hx
  · obtain ⟨h1, h2⟩ := roundTrip_bounds_of_nonneg s hs x hx
    rw [abs_le]
    omega
  · obtain ⟨h1, h2⟩ := roundTrip_bounds_of_nonneg s hs (-x) (by omega)
    rw [show roundTrip s x = -roundTrip s (-x) from by rw [roundTrip_neg]; ring]
    rw [abs_le]
    omega

/-- Claim C8 counterexample: the code rounds by Python int(), truncation
toward zero, which is not floor: at (x, y) = (-1, -1) and scale 1.25 the
code maps the logical point to physical (-1, -1), while floor rounding
would give (-2, -2) (⌊-1.25⌋ = -2). -/
theorem adapt_coordinate_not_floor_counterexample :
    DPIAdapter.adapt_coordinate ⟨5/4⟩ (-1) (-1) = (-1, -1) ∧
      ⌊((-1 : ℤ) : ℚ) * ((5 : ℚ)/4)⌋ = -2 := by
  have hval : ((-1 : ℤ) : ℚ) * ((5 : ℚ)/4) = -(5/4) := by
    push_cast
    ring
  have hceil : ⌈(-(5/4) : ℚ)⌉ = -1 := by
    rw [Int.ceil_neg]
    norm_num
  have hfloor : ⌊(-(5/4) : ℚ)⌋ = -2 := by norm_num
  constructor
  · rw [DPIAdapter.adapt_coordinate]
    rw [show (⟨5/4⟩ : DPIAdapter).dpi_scale = 5/4 from rfl]
    rw [hval]
    rw [pyInt, if_neg (by norm_num)]
    rw [hceil]
  · rw [hval, hfloor]

/-- Claim C8 (amended): for every integer pair (x, y) and every scale factor
in {1.0, 1.25, 1.5, 2.0}, reverse_coordinate after adapt_coordinate returns
(x, y) to within 1 pixel in each coordinate; the rounding is Python int()
truncation toward zero — which coincides with floor only on nonnegative
values, not in general. -/
theorem dpi_round_trip :
    ∀ (a : DPIAdapter) (x y : ℤ),
      (a.dpi_scale = 1 ∨ a.dpi_scale = 5/4 ∨ a.dpi_scale = 3/2 ∨ a.dpi_scale = 2) →
      |(a.reverse_coordinate (a.adapt_coordinate x y).1
          (a.adapt_coordinate x y).2).1 - x| ≤ 1 ∧
      |(a.reverse_coordinate (a.adapt_coordinate x y).1
          (a.adapt_coordinate x y).2).2 - y| ≤ 1 := by
  intro a x y hs
  have h1 : 1 ≤ a.dpi_scale := by
    rcases hs with h | h | h | h <;> rw [h] <;> norm_num
  constructor
  · rw [show (a.reverse_coordinate (a.adapt_coordinate x y).1
        (a.adapt_coordinate x y).2).1 = roundTrip a.dpi_scale x from rfl]
    exact roundTrip_abs_le _ h1 x
  · rw [show (a.reverse_coordinate (a.adapt_coordinate x y).1
        (a.adapt_coordinate x y).2).2 = roundTrip a.dpi_scale y from rfl]
    exact roundTrip_abs_le _ h1 y

/-- Claim C8 witness: the round trip at scale 1.25 and (x, y) = (7, -3). -/
theorem dpi_round_trip_witness :
    |((⟨5/4⟩ : DPIAdapter).reverse_coordinate
        ((⟨5/4⟩ : DPIAdapter).adapt_coordinate 7 (-3)).1
        ((⟨5/4⟩ : DPIAdapter).adapt_coordinate 7 (-3)).2).1 - 7| ≤ 1 ∧
    |((⟨5/4⟩ : DPIAdapter).reverse_coordinate
        ((⟨5/4⟩ : DPIAdapter).adapt_coordinate 7 (-3)).1
        ((⟨5/4⟩ : DPIAdapter).adapt_coordinate 7 (-3)).2).2 - (-3)| ≤ 1 :=
  dpi_round_trip ⟨5/4⟩ 7 (-3) (Or.inr (Or.inl rfl))

/-! ## rf_win/drivers/automation_driver.py -/

/-- Python startswith, on code points. -/
def startsWithChars : List Char → List Char → Bool
  | _, [] => true
  | [], _ :: _ => false
  | c :: cs, p :: ps => if c = p then startsWithChars cs ps else false

def pyStartsWith (s pre : String) : Bool := startsWithChars s.data pre.data

/-- Python slicing s[n:], by code points. -/
def pyDrop (s : String) (n : ℕ) : String := (s.data.drop n).asString

/-- A locator argument as the drivers receive it: a str or a criteria
dict (the isinstance(locator, str) test selects the branch). -/
inductive PyLocator where
  | str (s : String)
  | dict (d : List (String × String))
deriving DecidableEq, Repr

/-- One native pywinauto parent.child_window invocation: the keyword
arguments and the timeout the driver passes. -/
structure ChildWindowCall where
  kwargs : List (String × String)
  timeout : ℚ
deriving DecidableEq, Repr

/-- PywinautoDriver.find_element (automation_driver.py lines 312-328),
parameterized by the native behaviour of parent.child_window.  The locator
prefixes id= / name= / class= / xpath= select the keyword argument
(xpath degrades to a title match); anything else is a title match; a dict
locator is splatted through.  Nothing is caught: whatever the native call
raises propagates. -/
def PywinautoDriver.find_element {Elem : Type}
    (native : ChildWindowCall → Except PyErr Elem) (locator : PyLocator)
    (timeout : ℚ) : Except PyErr Elem :=
  match locator with
  | .str s =>
    if pyStartsWith s "id=" then native ⟨[("auto_id", pyDrop s 3)], timeout⟩
    else if pyStartsWith s "name=" then native ⟨[("name", pyDrop s 5)], timeout⟩
    else if pyStartsWith s "class=" then native ⟨[("class_name", pyDrop s 6)], timeout⟩
    else if pyStartsWith s "xpath=" then native ⟨[("title", pyDrop s 6)], timeout⟩
    else native ⟨[("title", s)], timeout⟩
  | .dict d => native ⟨d, timeout⟩

/-- PywinautoDriver.find_elements (lines 330-333): a list wrapping the
single find_element result — the comment in the source says exactly that. -/
def PywinautoDriver.find_elements {Elem : Type}
    (native : ChildWindowCall → Except PyErr Elem) (locator : PyLocator)
    (timeout : ℚ) : Except PyErr (List Elem) :=
  (PywinautoDriver.find_element native locator timeout).map fun e => [e]

/-- The keyword arguments UIAutomationDriver.find_element passes to
parent.Control for each locator shape (lines 514-527). -/
def uiaControlKwargs (locator : PyLocator) : List (String × String) :=
  match locator with
  | .str s =>
    if pyStartsWith s "id=" then [("AutomationId", pyDrop s 3)]
    else if pyStartsWith s "name=" then [("Name", pyDrop s 5)]
    else if pyStartsWith s "class=" then [("ClassName", pyDrop s 6)]
    else if pyStartsWith s "xpath=" then [("searchDepth", "10"), ("Name", pyDrop s 6)]
    else [("Name", s)]
  | .dict d => d

/-- The retry loop of UIAutomationDriver.find_element (lines 506-530):
attempts run at 0.5-second intervals while elapsed < timeout; a successful
native call returns immediately, an exception is swallowed followed by
time.sleep(0.5); when the while-condition fails the function returns None.
The native call is indexed by the attempt number. -/
def UIAutomationDriver.findAux {Elem : Type}
    (native : List (String × String) → ℕ → Except PyErr Elem)
    (kwargs : List (String × String)) (timeout : ℚ) : ℕ → ℕ → Option Elem
  | _, 0 => none
  | k, fuel + 1 =>
    if (k : ℚ) * (1/2) < timeout then
      match native kwargs k with
      | .ok e => some e
      | .error _ => UIAutomationDriver.findAux native kwargs timeout (k + 1) fuel
    else none

/-- UIAutomationDriver.find_element. -/
def UIAutomationDriver.find_element {Elem : Type}
    (native : List (String × String) → ℕ → Except PyErr Elem)
    (locator : PyLocator) (timeout : ℚ) : Option Elem :=
  UIAutomationDriver.findAux native (uiaControlKwargs locator) timeout 0
    (pollLimit timeout (1/2) + 1)

/-- UIAutomationDriver.find_elements (lines 532-536):
[element] if element else []. -/
def UIAutomationDriver.find_elements {Elem : Type}
    (native : List (String × String) → ℕ → Except PyErr Elem)
    (locator : PyLocator) (timeout : ℚ) : List Elem :=
  match UIAutomationDriver.find_element native locator timeout with
  | some e => [e]
  | none => []

theorem uiaFindAux_succ {Elem : Type}
    (native : List (String × String) → ℕ → Except PyErr Elem)
    (kwargs : List (String × String)) (timeout : ℚ) (k fuel : ℕ) :
    UIAutomationDriver.findAux native kwargs timeout k (fuel + 1)
      = if (k : ℚ) * (1/2) < timeout then
          match native kwargs k with
          | .ok e => some e
          | .error _ => UIAutomationDriver.findAux native kwargs timeout (k + 1) fuel
        else none := rfl

/-- A native child_window behaviour that raises (pywinauto's
ElementNotFoundError) on every call. -/
def raisingChildWindow : ChildWindowCall → Except PyErr ℕ :=
  fun _ => .error .elementNotFound

/-- Claim C6 counterexample: PywinautoDriver.find_elements does fail — it
propagates whatever the native child_window call raises (there is no
try/except in lines 312-333), instead of returning an empty sequence. -/
theorem pywinauto_find_elements_failure_counterexample :
    PywinautoDriver.find_elements raisingChildWindow (.str "id=x") 10
      = .error .elementNotFound := rfl

/-- Claim C6 (amended): PywinautoDriver.find_elements wraps find_element's
result in a one-element list — it never returns an empty sequence, and any
native exception propagates (it can fail).  UIAutomationDriver.find_elements
never fails, returning [] exactly when its find_element loop timed out with
None and a singleton otherwise. -/
theorem find_elements_shape :
    (∀ (Elem : Type) (native : ChildWindowCall → Except PyErr Elem)
        (locator : PyLocator) (timeout : ℚ) (e : Elem),
      PywinautoDriver.find_element native locator timeout = .ok e →
      PywinautoDriver.find_elements native locator timeout = .ok [e]) ∧
    (∀ (Elem : Type) (native : ChildWindowCall → Except PyErr Elem)
        (locator : PyLocator) (timeout : ℚ) (err : PyErr),
      PywinautoDriver.find_element native locator timeout = .error err →
      PywinautoDriver.find_elements native locator timeout = .error err) ∧
    (∀ (Elem : Type) (native : ChildWindowCall → Except PyErr Elem)
        (locator : PyLocator) (timeout : ℚ) (l : List Elem),
      PywinautoDriver.find_elements native locator timeout = .ok l →
      l.length = 1) ∧
    (∀ (Elem : Type) (native : List (String × String) → ℕ → Except PyErr Elem)
        (locator : PyLocator) (timeout : ℚ),
      (UIAutomationDriver.find_elements native locator timeout = []
        ↔ UIAutomationDriver.find_element native locator timeout = none) ∧
      (∀ e, UIAutomationDriver.find_element native locator timeout = some e →
        UIAutomationDriver.find_elements native locator timeout = [e])) := by
  refine ⟨?_, ?_, ?_, ?_⟩
  · intro Elem native locator timeout e h
    rw [PywinautoDriver.find_elements, h]
    rfl
  · intro Elem native locator timeout err h
    rw [PywinautoDriver.find_elements, h]
    rfl
  · intro Elem native locator timeout l h
    rw [PywinautoDriver.find_elements] at h
    cases hfe : PywinautoDriver.find_element native locator timeout with
    | ok e =>
      rw [hfe] at h
      simp only [Except.map] at h
      cases h
      rfl
    | error err =>
      rw [hfe] at h
      simp only [Except.map] at h
      cases h
  · intro Elem native locator timeout
    constructor
    · cases h : UIAutomationDriver.find_element native locator timeout with
      | some e =>
        rw [UIAutomationDriver.find_elements, h]
        simp
      | none =>
        rw [UIAutomationDriver.find_elements, h]
        simp
    · intro e h
      rw [UIAutomationDriver.find_elements, h]

/-- A native child_window behaviour that always returns handle 7 (pywinauto
child_window is lazy: it returns a specification object whether or not a
matching element exists). -/
def lazyChildWindow : ChildWindowCall → Except PyErr ℕ :=
  fun _ => .ok 7

/-- A native parent.Control behaviour that succeeds immediately. -/
def uiaOkControl : List (String × String) → ℕ → Except PyErr ℕ :=
  fun _ _ => .ok 7

/-- Claim C6 witness: concrete instances of find_elements_shape — the
pywinauto variant returns the singleton [7] even when nothing matches, and
the uiautomation variant returns [7] when an attempt succeeds. -/
theorem find_elements_shape_witness :
    PywinautoDriver.find_elements lazyChildWindow (.str "id=x") 10 = .ok [7] ∧
    UIAutomationDriver.find_elements uiaOkControl (.str "btn") 1 = [7] := by
  constructor
  · exact find_elements_shape.1 ℕ lazyChildWindow (.str "id=x") 10 7 rfl
  · refine (find_elements_shape.2.2.2 ℕ uiaOkControl (.str "btn") 1).2 7 ?_
    rw [UIAutomationDriver.find_element, uiaFindAux_succ]
    rw [if_pos (by norm_num)]
    rfl

/-- The concrete backend drivers the factory can hand out. -/
inductive DriverTag where
  | pywinautoDriver
  | uiautomationDriver
deriving DecidableEq, Repr

/-- The availability probes DriverFactory.__init__ performs. -/
inductive BackendProbe where
  | pywinauto
  | uiautomation
deriving DecidableEq, Repr

/-- DriverFactory state (automation_driver.py lines 665-683): the registered
drivers dict and the default driver name. -/
structure DriverFactory where
  drivers : List (String × DriverTag)
  default_driver : Option String
deriving DecidableEq, Repr

/-- DriverFactory.__init__ (lines 668-682) given the two cached availability
booleans of version_adapter, together with the trace of availability probes
it performs — is_pywinauto_available and is_uiautomation_available are each
consulted exactly once, at construction. -/
def mkDriverFactory (availPy availUia : Bool) : DriverFactory × List BackendProbe :=
  let drivers : List (String × DriverTag) :=
    (if availPy then [("pywinauto", .pywinautoDriver)] else [])
      ++ (if availUia then [("uiautomation", .uiautomationDriver)] else [])
  let defaultDriver : Option String :=
    if (drivers.lookup "pywinauto").isSome then some "pywinauto"
    else if (drivers.lookup "uiautomation").isSome then some "uiautomation"
    else none
  (⟨drivers, defaultDriver⟩, [.pywinauto, .uiautomation])

/-- DriverFactory.get_driver (lines 684-710).  A None name falls back to the
default driver; "auto" picks pywinauto first, then uiautomation; a
registered name returns its driver; anything else raises ValueError.  The
function consults only the factory state — it takes no availability
information. -/
def DriverFactory.get_driver (f : DriverFactory) (nameArg : Option String) :
    Except PyErr DriverTag :=
  let name : Option String :=
    match nameArg with
    | none => f.default_driver
    | some n => some n
  if name = some "auto" then
    match f.drivers.lookup "pywinauto" with
    | some d => .ok d
    | none =>
      match f.drivers.lookup "uiautomation" with
      | some d => .ok d
      | none => .error (.valueError "No driver available for auto selection")
  else
    match name with
    | some n =>
      match f.drivers.lookup n with
      | some d => .ok d
      | none => .error (.valueError ("Driver " ++ n ++ " not available"))
    | none => .error (.valueError "Driver None not available")


/-- Claim C9: an explicitly given registered name returns its driver; the
name "auto" and an omitted name both return the first available driver in
the fixed order pywinauto before uiautomation (whenever at least one is
available); an explicitly requested unregistered name fails with ValueError;
and the availability probes happen exactly once each, at construction —
get_driver consumes only the cached factory state and can make no probe. -/
theorem driverFactory_selection :
    (∀ (a b : Bool) (n : String) (d : DriverTag),
      (mkDriverFactory a b).1.drivers.lookup n = some d →
      (mkDriverFactory a b).1.get_driver (some n) = .ok d) ∧
    (∀ a b : Bool, (a || b) = true →
      (mkDriverFactory a b).1.get_driver none
          = .ok (if a then .pywinautoDriver else .uiautomationDriver) ∧
      (mkDriverFactory a b).1.get_driver (some "auto")
          = .ok (if a then .pywinautoDriver else .uiautomationDriver)) ∧
    (∀ (a b : Bool) (n : String), n ≠ "auto" →
      (mkDriverFactory a b).1.drivers.lookup n = none →
      (mkDriverFactory a b).1.get_driver (some n)
          = .error (.valueError ("Driver " ++ n ++ " not available"))) ∧
    (∀ a b : Bool, (mkDriverFactory a b).2 = [.pywinauto, .uiautomation]) := by
  refine ⟨?_, ?_, ?_, ?_⟩
  · intro a b n d hl
    by_cases hauto : n = "auto"
    · subst hauto
      exfalso
      cases a <;> cases b <;>
        simp +decide [mkDriverFactory, List.lookup] at hl
    · rw [DriverFactory.get_driver]
      rw [if_neg (by simp [hauto])]
      rw [hl]
  · intro a b hab
    cases a <;> cases b
    · exact absurd hab (by decide)
    · exact ⟨rfl, rfl⟩
    · exact ⟨rfl, rfl⟩
    · exact ⟨rfl, rfl⟩
  · intro a b n hne hnone
    rw [DriverFactory.get_driver]
    rw [if_neg (by simp [hne])]
    rw [hnone]
  · intro a b
    rfl

/-- Claim C9 witness: concrete instances of driverFactory_selection with
both backends available (and, for the probe trace, only uiautomation). -/
theorem driverFactory_selection_witness :
    (mkDriverFactory true true).1.get_driver (some "uiautomation")
        = .ok .uiautomationDriver ∧
    (mkDriverFactory true true).1.get_driver none = .ok .pywinautoDriver ∧
    (mkDriverFactory true true).1.get_driver (some "auto")
        = .ok .pywinautoDriver ∧
    (mkDriverFactory true true).1.get_driver (some "winrt")
        = .error (.valueError ("Driver " ++ "winrt" ++ " not available")) ∧
    (mkDriverFactory false true).2 = [.pywinauto, .uiautomation] := by
  refine ⟨?_, ?_, ?_, ?_, ?_⟩
  · exact driverFactory_selection.1 true true "uiautomation"
      .uiautomationDriver (by decide)
  · exact (driverFactory_selection.2.1 true true (by decide)).1
  · exact (driverFactory_selection.2.1 true true (by decide)).2
  · exact driverFactory_selection.2.2.1 true true "winrt" (by decide) (by decide)
  · exact driverFactory_selection.2.2.2 false true

/-! ## rf_win/services/control_service.py -/

/-- A Python object reference as ControlService.find_element sees its
`parent` argument: objId is CPython id() — the object's memory address,
stable only while this very object is alive — and hwnd stands for the
stable native surrogate (window handle / runtime id) of the underlying UI
element, which distinct wrapper objects for the same window share. -/
structure PyObject where
  objId : ℕ
  hwnd : ℕ
deriving DecidableEq, Repr

/-- The cache key of ControlService.find_element (control_service.py
line 363): f-string "{id(parent)}:{str(locator)}:{timeout}". -/
def build_cache_key (parent : PyObject) (locator : String) (timeout : ℚ) :
    String :=
  toString parent.objId ++ ":" ++ locator ++ ":" ++ toString timeout

/-- Claim C3 counterexample: the key is built from id(parent) — the
object's transient memory address — not from a stable surrogate: two parent
objects with the same native handle 42 but different ids produce different
keys, so no function of (stable parent identity, locator, timeout) can
reproduce the key. -/
theorem build_cache_key_not_stable_counterexample :
    ((⟨1, 42⟩ : PyObject).hwnd = (⟨2, 42⟩ : PyObject).hwnd ∧
      build_cache_key ⟨1, 42⟩ "id=ok" 10 ≠ build_cache_key ⟨2, 42⟩ "id=ok" 10) ∧
    ¬ ∃ f : ℕ → String → ℚ → String,
        ∀ (p : PyObject) (locator : String) (timeout : ℚ),
          build_cache_key p locator timeout = f p.hwnd locator timeout := by
  have hne : build_cache_key ⟨1, 42⟩ "id=ok" 10
      ≠ build_cache_key ⟨2, 42⟩ "id=ok" 10 := by decide
  refine ⟨⟨rfl, hne⟩, ?_⟩
  rintro ⟨f, hf⟩
  have h1 := hf ⟨1, 42⟩ "id=ok" 10
  have h2 := hf ⟨2, 42⟩ "id=ok" 10
  have hsame : f (⟨1, 42⟩ : PyObject).hwnd "id=ok" 10
      = f (⟨2, 42⟩ : PyObject).hwnd "id=ok" 10 := rfl
  exact hne (h1.trans (hsame.trans h2.symm))

/-- Claim C3 (amended): the cache key is derivable purely from the triple
(id(parent), str(locator), timeout) where id(parent) is the transient
CPython object identity: two calls hit the same cache slot whenever they
pass the very same parent object (equal id), regardless of any stable
native identity — and, per the counterexample, not otherwise. -/
theorem build_cache_key_depends_on_objId :
    ∀ (p q : PyObject) (locator : String) (timeout : ℚ),
      p.objId = q.objId →
      build_cache_key p locator timeout = build_cache_key q locator timeout := by
  intro p q locator timeout h
  rw [build_cache_key, build_cache_key, h]

/-- Claim C3 witness: two distinct parent objects with equal id (same
memory address at different times) and different native handles produce the
same key. -/
theorem build_cache_key_depends_on_objId_witness :
    build_cache_key ⟨5, 42⟩ "id=ok" 10 = build_cache_key ⟨5, 99⟩ "id=ok" 10 :=
  build_cache_key_depends_on_objId ⟨5, 42⟩ ⟨5, 99⟩ "id=ok" 10 rfl


/-- The driver operations ControlService.find_element consults
(self._driver.is_element_valid and self._driver.find_element). -/
structure ControlDriver (Elem : Type) where
  find_element : PyObject → String → ℚ → Except PyErr Elem
  is_element_valid : Elem → Bool

/-- The attribute state of a ControlService instance.  __init__
(control_service.py lines 14-20) assigns self._driver, self.app_service,
self.window_service and self._control_cache — it never assigns self._cache.
find_element (lines 362-373) reads and writes self._cache; the field
cacheAttr models that attribute, `none` meaning "never assigned" (reading
it raises AttributeError in Python).  The cache object the dead branch
would use is modelled as a keyed store, its TTL argument dropped (the
intended cache class is not determined by the source: the set call passes
the keyword ttl, which neither CacheManager.set nor ControlCache.set
accepts). -/
structure ControlServiceState (Elem : Type) where
  control_cache : List (String × Elem)
  cacheAttr : Option (List (String × Elem))

/-- ControlService.__init__: the only cache attribute assigned is
self._control_cache = {}. -/
def ControlService.init (Elem : Type) : ControlServiceState Elem := ⟨[], none⟩

/-- What one ControlService.find_element call produces: the returned value
or exception, how many native driver.find_element searches ran, and the
service state afterwards. -/
structure FindElementOutcome (Elem : Type) where
  result : Except PyErr Elem
  nativeSearches : ℕ
  state : ControlServiceState Elem

/-- ControlService.find_element (control_service.py lines 346-376): build
cache_key from (id(parent), locator, timeout); read self._cache — an
unassigned attribute raises AttributeError — then return a cached element
only when driver.is_element_valid holds of it, otherwise run exactly one
native driver.find_element and store a successful result back under the
same key. -/
def ControlService.find_element {Elem : Type} (driver : ControlDriver Elem)
    (svc : ControlServiceState Elem) (parent : PyObject) (locator : String)
    (timeout : ℚ) : FindElementOutcome Elem :=
  let cache_key := build_cache_key parent locator timeout
  match svc.cacheAttr with
  | none => ⟨.error (.attributeError "_cache"), 0, svc⟩
  | some cache =>
    match cache.lookup cache_key with
    | some cached =>
      if driver.is_element_valid cached then ⟨.ok cached, 0, svc⟩
      else
        match driver.find_element parent locator timeout with
        | .ok element =>
          ⟨.ok element, 1,
            { svc with cacheAttr := some (dictSet cache cache_key element) }⟩
        | .error err => ⟨.error err, 1, svc⟩
    | none =>
      match driver.find_element parent locator timeout with
      | .ok element =>
        ⟨.ok element, 1,
          { svc with cacheAttr := some (dictSet cache cache_key element) }⟩
      | .error err => ⟨.error err, 1, svc⟩

/-- Claim C1 (code bug): on the ControlService that __init__ actually
builds, every find_element call fails with AttributeError on the very first
cache access (self._cache was never assigned; __init__ created
self._control_cache instead) and performs zero native searches — the
claimed validity-gated caching never executes.  The claim describes the
clear intent of the body; the attribute slip (and the unresolvable
`from ..utils.cache_manager import cache_manager` at line 6) breaks it. -/
theorem controlService_find_element_attributeError :
    ∀ (Elem : Type) (driver : ControlDriver Elem) (parent : PyObject)
        (locator : String) (timeout : ℚ),
      (ControlService.find_element driver (ControlService.init Elem)
          parent locator timeout).result = .error (.attributeError "_cache") ∧
      (ControlService.find_element driver (ControlService.init Elem)
          parent locator timeout).nativeSearches = 0 :=
  fun _ _ _ _ _ => ⟨rfl, rfl⟩

/-- The body of find_element, run with the cache attribute present (the
state the code plainly intends): a cached element is returned without any
native search exactly when is_element_valid holds of it; on an invalid
cached element or a cache miss exactly one native search runs, and a
successful result is stored back under the computed key. -/
theorem controlService_find_element_validity_gate
    {Elem : Type} (driver : ControlDriver Elem)
    (cache : List (String × Elem)) (parent : PyObject) (locator : String)
    (timeout : ℚ) :
    (∀ cached,
      cache.lookup (build_cache_key parent locator timeout) = some cached →
      driver.is_element_valid cached = true →
      ControlService.find_element driver ⟨[], some cache⟩ parent locator timeout
        = ⟨.ok cached, 0, ⟨[], some cache⟩⟩) ∧
    (∀ cached,
      cache.lookup (build_cache_key parent locator timeout) = some cached →
      driver.is_element_valid cached = false →
      (ControlService.find_element driver ⟨[], some cache⟩ parent locator
          timeout).nativeSearches = 1 ∧
      (ControlService.find_element driver ⟨[], some cache⟩ parent locator
          timeout).result = driver.find_element parent locator timeout ∧
      (∀ e, driver.find_element parent locator timeout = .ok e →
        (ControlService.find_element driver ⟨[], some cache⟩ parent locator
            timeout).state.cacheAttr
          = some (dictSet cache (build_cache_key parent locator timeout) e))) ∧
    (cache.lookup (build_cache_key parent locator timeout) = none →
      (ControlService.find_element driver ⟨[], some cache⟩ parent locator
          timeout).nativeSearches = 1 ∧
      (ControlService.find_element driver ⟨[], some cache⟩ parent locator
          timeout).result = driver.find_element parent locator timeout) := by
  refine ⟨?_, ?_, ?_⟩
  · intro cached hl hv
    rw [ControlService.find_element]
    simp only [hl, hv, if_true]
  · intro cached hl hv
    rw [ControlService.find_element]
    simp only [hl, hv]
    cases hfe : driver.find_element parent locator timeout with
    | ok e =>
      refine ⟨rfl, rfl, ?_⟩
      intro e' he'
      cases he'
      rfl
    | error err => exact ⟨rfl, rfl, fun e' he' => by cases he'⟩
  · intro hl
    rw [ControlService.find_element]
    simp only [hl]
    cases hfe : driver.find_element parent locator timeout with
    | ok e => exact ⟨rfl, rfl⟩
    | error err => exact ⟨rfl, rfl⟩


end RfWin
